import Mathlib

/-!
# Fruit Ripeness Classification pipeline — verification development

Shallow embedding of the classification pipeline of the fruit-ripeness
repository (`js/classifier.js` in its two revisions, `js/utils.js`,
`js/visualization.js`, `js/app.js`), together with theorems settling the
specification claims about it.

Modelling conventions:
* JS numbers are modelled as exact rationals (`ℚ`); `NaN`/`Infinity` do not
  arise on the inputs the theorems quantify over.
* JS strings are Lean `String`s; JS objects with a fixed key set are Lean
  structures.
* A JS value that may be `null`/`undefined`/absent is an `Option`.
* The fruit-metadata catalog (`fruitMetadata.fruits`, loaded from
  `data/fruit-metadata.json`) is passed as an explicit `Catalog` parameter;
  a failed metadata load (`fruitMetadata = null`) is the empty catalog.
  The memoization cache `fruitTypeCache` caches the result of a pure lookup
  and is dropped from the model.
* `timestamp` (wall clock) and the DOM event dispatch are outside the model.
-/

namespace FruitClassifier

/-- `RIPENESS_CATEGORIES` from `classifier.js`: the fixed category table. -/
def RIPENESS_CATEGORIES : List String :=
  ["unripe", "ripe", "overripe", "spoiled"]

/-- The catalog's two-valued quality axis fields (`{fresh, rotten}`).
A field that is absent or empty (falsy in JS) is `none`. -/
structure FreshRotten where
  fresh : Option String
  rotten : Option String
deriving DecidableEq

/-- One entry of `fruitMetadata.fruits` (see spec §6: `{name, displayName,
qualityIndicators, storageRecommendations, variants}`). An object-valued
field that is absent (falsy in JS) is `none`. -/
structure Fruit where
  name : String
  displayName : String
  qualityIndicators : Option FreshRotten
  storageRecommendations : Option FreshRotten
  variants : List String
deriving DecidableEq

/-- The loaded catalog `fruitMetadata.fruits`; `[]` when metadata failed to
load (`fruitMetadata = null`). -/
abbrev Catalog := List Fruit

/-- `getFruitMetadata` (classifier.js): find the catalog entry whose `name`
equals the fruit type (the cache is memoization of this pure lookup). -/
def getFruitMetadata (meta : Catalog) (fruitType : String) : Option Fruit :=
  meta.find? (fun f => f.name == fruitType)

/-- `mapScoreToRipenessCategory` (classifier.js, binary revision, lines
201–211): threshold bands over the binary rottenness score. -/
def mapScoreToRipenessCategory (score : ℚ) : String :=
  if score < 0.3 then
    "ripe"
  else if score < 0.7 then
    "overripe"
  else
    "spoiled"

/-- `capitalizeFirstLetter` (classifier.js). -/
def capitalizeFirstLetter (s : String) : String :=
  match s.data with
  | [] => ""
  | c :: rest => String.mk (c.toUpper :: rest)

/-- The generic recommendation table of `getRecommendationText`
(classifier.js lines 326–333), including the `|| 'Unknown recommendation'`
default for a key outside the table. -/
def genericRecommendations (category : String) : String :=
  if category == "unripe" then "Keep in storage for ripening"
  else if category == "ripe" then "Display for immediate sale"
  else if category == "overripe" then "Discount and prioritize for sale"
  else if category == "spoiled" then "Remove from inventory"
  else "Unknown recommendation"

/-- The generic indicator table of `getRipenessIndicators`
(classifier.js lines 354–361), including its default text. -/
def genericIndicators (category : String) : String :=
  if category == "unripe" then "Firm texture, bright color, may be hard"
  else if category == "ripe" then "Slight give when pressed, vibrant color, sweet aroma"
  else if category == "overripe" then "Soft spots, darker coloration, very sweet smell"
  else if category == "spoiled" then "Mushy texture, discoloration, mold, fermented smell"
  else "No specific indicators available"

/-- The fresh/rotten canonicalization shared by `getRecommendationText` and
`getRipenessIndicators`: `metadataCategory = (category === 'ripe' ||
category === 'unripe') ? 'fresh' : 'rotten'`, then indexing the two-valued
field. -/
def axisGet (category : String) (fr : FreshRotten) : Option String :=
  if category == "ripe" || category == "unripe" then fr.fresh else fr.rotten

/-- `getRecommendationText` (classifier.js, binary revision, lines 313–334). -/
def getRecommendationText (meta : Catalog) (category : String) (fruitType : String) : String :=
  match getFruitMetadata meta fruitType with
  | some fruit =>
    match fruit.storageRecommendations with
    | some sr =>
      match axisGet category sr with
      | some t => t
      | none => genericRecommendations category
    | none => genericRecommendations category
  | none => genericRecommendations category

/-- `getRipenessIndicators` (classifier.js, binary revision, lines 342–362). -/
def getRipenessIndicators (meta : Catalog) (category : String) (fruitType : String) : String :=
  match getFruitMetadata meta fruitType with
  | some fruit =>
    match fruit.qualityIndicators with
    | some qi =>
      match axisGet category qi with
      | some t => t
      | none => genericIndicators category
    | none => genericIndicators category
  | none => genericIndicators category

/-- Does `hay` start with `needle`? (character-list version of the prefix
test underlying JS `String.prototype.includes`). -/
def startsWithL : List Char → List Char → Bool
  | _, [] => true
  | [], _ :: _ => false
  | h :: hs, n :: ns => h == n && startsWithL hs ns

/-- JS `hay.includes(needle)`: `needle` occurs contiguously in `hay`. -/
def jsIncludes (hay needle : List Char) : Bool :=
  match hay with
  | [] => startsWithL [] needle
  | _ :: t => startsWithL hay needle || jsIncludes t needle

/-- The hardcoded fruit-name list shared by `extractFruitType`
(classifier.js lines 132–136) and `getFruitTypeFromFileName`
(utils.js lines 121–125). -/
def fruitsList : List String :=
  ["apple", "banana", "orange", "strawberry", "grape",
   "blueberry", "pear", "peach", "plum", "mango",
   "kiwi", "pineapple", "watermelon", "cherry"]

/-- JS `String.prototype.toLowerCase`, character by character (the
filenames involved are ASCII). -/
def jsToLower (s : String) : String :=
  String.mk (s.data.map Char.toLower)

/-- The first-match scan over the fruit list (`for (const fruit of fruits)
if (fileName.includes(fruit)) return fruit; return 'unknown'`). -/
def findFruit : List String → String → String
  | [], _ => "unknown"
  | f :: rest, fileName =>
    if jsIncludes fileName.data f.data then f else findFruit rest fileName

/-- `extractFruitType` (classifier.js, binary revision, lines 120–146).
The `File|String` union argument is modelled as the lowercase-able filename
when one is available (`none` = no usable name, the early `'unknown'`
return). -/
def extractFruitType (fileOrName : Option String) : String :=
  match fileOrName with
  | none => "unknown"
  | some s => findFruit fruitsList (jsToLower s)

/-- JS `fileName.split('.')[0]`: the characters before the first `.`
(the whole string when there is none). -/
def beforeFirstDot (s : String) : String :=
  String.mk (s.data.takeWhile (fun c => c ≠ '.'))

/-- `getFruitTypeFromFileName` (utils.js lines 116–136): the same scan,
applied to the filename truncated at its first `.`. -/
def getFruitTypeFromFileName (fileName : String) : String :=
  findFruit fruitsList (jsToLower (beforeFirstDot fileName))

/-- The `confidenceMap` object of `formatResults` (classifier.js, binary
revision, lines 236–241): one score per canonical category, keys in
insertion order unripe, ripe, overripe, spoiled. -/
structure ConfidenceMap where
  unripe : ℚ
  ripe : ℚ
  overripe : ℚ
  spoiled : ℚ
deriving DecidableEq

/-- The confidence-synthesis branch of `formatResults` (classifier.js,
binary revision, lines 245–257): distribute confidences from the binary
rottenness score. -/
def binaryConfidenceMap (rottenScore : ℚ) : ConfidenceMap :=
  if rottenScore < 0.3 then
    { unripe := if 0.3 - rottenScore > 0 then (0.3 - rottenScore) * 100 else 0
      ripe := (1 - rottenScore) * 100
      overripe := 0
      spoiled := 0 }
  else if rottenScore < 0.7 then
    { unripe := 0
      ripe := (0.7 - rottenScore) / 0.4 * 100
      overripe := (rottenScore - 0.3) / 0.4 * 100
      spoiled := 0 }
  else
    { unripe := 0
      ripe := 0
      overripe := (1 - rottenScore) * 100 * 0.5
      spoiled := rottenScore * 100 }

/-- JS `confidenceMap[category]` (the `else 0` branch stands for the
`undefined` a JS read of a key outside the object would give; it is
unreachable for the categories the mapper produces). -/
def confMapGet (m : ConfidenceMap) (category : String) : ℚ :=
  if category == "unripe" then m.unripe
  else if category == "ripe" then m.ripe
  else if category == "overripe" then m.overripe
  else if category == "spoiled" then m.spoiled
  else 0

/-- `Object.keys(confidenceMap).map(category => ({category, confidence}))`
(classifier.js, binary revision, lines 260–263): the four entries in key
insertion order. -/
def allConfidencesOf (m : ConfidenceMap) : List (String × ℚ) :=
  [("unripe", m.unripe), ("ripe", m.ripe), ("overripe", m.overripe), ("spoiled", m.spoiled)]

/-- The result record built by `formatResults` (classifier.js). The
`timestamp` field (wall clock) is outside the model. -/
structure ClassificationResult where
  fruitType : String
  fruitDisplayName : String
  ripeness : String
  confidence : ℚ
  rawScore : ℚ
  allConfidences : List (String × ℚ)
  recommendedAction : String
  ripenessIndicators : String
deriving DecidableEq

/-- `formatResults` (classifier.js, binary revision, lines 219–280).
`predictionData.headI` is JS `predictionData[0]` (the theorems about it
only quantify over the length-1 predictions a successful binary-model call
produces); `originalFile` is the optional file carrying a filename. -/
def formatResults (meta : Catalog) (predictionData : List ℚ) (originalFile : Option String) :
    ClassificationResult :=
  let rottenScore := predictionData.headI
  let fruitType :=
    match originalFile with
    | some f => extractFruitType (some f)
    | none => "unknown"
  let ripeness := mapScoreToRipenessCategory rottenScore
  let fruit := getFruitMetadata meta fruitType
  let fruitDisplayName :=
    match fruit with
    | some f => f.displayName
    | none => capitalizeFirstLetter fruitType
  let confidenceMap := binaryConfidenceMap rottenScore
  { fruitType := fruitType
    fruitDisplayName := fruitDisplayName
    ripeness := ripeness
    confidence := confMapGet confidenceMap ripeness
    rawScore := rottenScore * 100
    allConfidences := allConfidencesOf confidenceMap
    recommendedAction := getRecommendationText meta ripeness fruitType
    ripenessIndicators := getRipenessIndicators meta ripeness fruitType }

/-- The model handle: `predict(...).dataSync()` as a score-vector producer
(tensor plumbing and `dispose` are outside the model). -/
structure Model where
  predict : Unit → List ℚ

/-- `createMockModel` (classifier.js, binary revision, lines 80–90): the
synthetic handle; `coin` models the `Math.random() > 0.5` draw behind its
binary output `[0.8]` / `[0.2]`. -/
def createMockModel (coin : Bool) : Model :=
  { predict := fun _ => [if coin then (0.8 : ℚ) else 0.2] }

/-- `initializeClassifier` (classifier.js lines 30–60). `current` is the
module-level `model` variable; `loadOutcome` is what
`tf.loadLayersModel` did (`.error` = it threw). The `catch` branch installs
the mock model and returns `false`; the function's return type shows no
error escapes to the caller. -/
def initializeClassifier (current : Option Model) (loadOutcome : Except String Model)
    (coin : Bool) : Model × Bool :=
  match current with
  | some m => (m, true)
  | none =>
    match loadOutcome with
    | .ok m => (m, true)
    | .error _ => (createMockModel coin, false)

/-- The data path of `classifyImage` (classifier.js lines 154–194) after
the model is available: run `predict`, read the scores, format. Event
dispatch and tensor disposal are outside the model. -/
def classifyImage (meta : Catalog) (m : Model) (originalFile : Option String) :
    ClassificationResult :=
  formatResults meta (m.predict ()) originalFile

/-- `addDataPointToHistory` (visualization.js lines 573–584): push, then
`shift()` (drop index 0) once the length exceeds the capacity 50. -/
def addDataPointToHistory {α : Type} (hist : List α) (dataPoint : α) : List α :=
  let h := hist ++ [dataPoint]
  if h.length > 50 then h.tail else h

/-- Modelled from the spec (§4.4): the claimed fruit-type derivation order —
exact catalog-name match in the filename, then catalog variant-alias match,
then the hardcoded fallback fruit-name list, else `unknown`. The source
(`extractFruitType`, `getFruitTypeFromFileName`) has no catalog stages; this
definition follows the words of the spec so the claim can be compared with
the code. -/
def specDerivedFruitType (catalog : Catalog) (fileName : String) : String :=
  let fn := jsToLower fileName
  match catalog.find? (fun f => jsIncludes fn.data f.name.data) with
  | some f => f.name
  | none =>
    match catalog.find? (fun f => f.variants.any (fun v => jsIncludes fn.data v.data)) with
    | some f => f.name
    | none => findFruit fruitsList fn

end FruitClassifier

namespace Multiclass

/-- `INDICES_TO_CLASS` of the 24-class revision (`src/js/classifier.js`
lines 17–32), as the index-ordered class-name table. -/
def CLASS_NAMES : List String :=
  ["fresh_apple", "fresh_banana", "fresh_cherry", "fresh_grape",
   "fresh_kiwi", "fresh_mango", "fresh_orange", "fresh_peach",
   "fresh_pear", "fresh_plum", "fresh_strawberry", "fresh_watermelon",
   "rotten_apple", "rotten_banana", "rotten_cherry", "rotten_grape",
   "rotten_kiwi", "rotten_mango", "rotten_orange", "rotten_peach",
   "rotten_pear", "rotten_plum", "rotten_strawberry", "rotten_watermelon"]

/-- `RIPENESS_MAPPING` (`src/js/classifier.js` lines 35–60). -/
def RIPENESS_MAPPING : List (String × String) :=
  (CLASS_NAMES.take 12).map (fun n => (n, "ripe")) ++
  (CLASS_NAMES.drop 12).map (fun n => (n, "spoiled"))

/-- `mapToRipenessCategory` (`src/js/classifier.js` lines 251–265). -/
def mapToRipenessCategory (className : String) : String :=
  match RIPENESS_MAPPING.lookup className with
  | some c => c
  | none =>
    if className.startsWith "fresh_" then "ripe"
    else if className.startsWith "rotten_" then "spoiled"
    else "unknown"

/-- `predictionData.indexOf(Math.max(...predictionData))`
(`src/js/classifier.js` line 274): index of the first maximal score. -/
def highestIndex (d : List ℚ) : Nat :=
  d.indexOf (d.foldl max d.headI)

/-- The ripeness selection of the 24-class `formatResults`
(`src/js/classifier.js` lines 272–281): class name at the arg-max index,
mapped through `mapToRipenessCategory`. (The `""` default stands for the
`undefined` JS would read past the table; unreachable for predictions of
length ≤ 24.) -/
def formatResultsRipeness (d : List ℚ) : String :=
  mapToRipenessCategory (CLASS_NAMES.getD (highestIndex d) "")

end Multiclass


set_option maxRecDepth 8000

open FruitClassifier

/-! ## Helper lemmas -/

theorem mapScore_eq_ripe {s : ℚ} (h : s < 0.3) :
    mapScoreToRipenessCategory s = "ripe" := by
  unfold mapScoreToRipenessCategory
  rw [if_pos h]

theorem mapScore_eq_overripe {s : ℚ} (h1 : ¬ s < 0.3) (h2 : s < 0.7) :
    mapScoreToRipenessCategory s = "overripe" := by
  unfold mapScoreToRipenessCategory
  rw [if_neg h1, if_pos h2]

theorem mapScore_eq_spoiled {s : ℚ} (h1 : ¬ s < 0.3) (h2 : ¬ s < 0.7) :
    mapScoreToRipenessCategory s = "spoiled" := by
  unfold mapScoreToRipenessCategory
  rw [if_neg h1, if_neg h2]

theorem mapScore_cases (s : ℚ) :
    mapScoreToRipenessCategory s = "ripe"
    ∨ mapScoreToRipenessCategory s = "overripe"
    ∨ mapScoreToRipenessCategory s = "spoiled" := by
  unfold mapScoreToRipenessCategory
  split_ifs <;> simp

theorem formatResults_ripeness (meta : Catalog) (d : List ℚ) (file : Option String) :
    (formatResults meta d file).ripeness = mapScoreToRipenessCategory d.headI := rfl

theorem formatResults_confidence (meta : Catalog) (d : List ℚ) (file : Option String) :
    (formatResults meta d file).confidence
      = confMapGet (binaryConfidenceMap d.headI) (mapScoreToRipenessCategory d.headI) := rfl

theorem formatResults_allConfidences (meta : Catalog) (d : List ℚ) (file : Option String) :
    (formatResults meta d file).allConfidences
      = allConfidencesOf (binaryConfidenceMap d.headI) := rfl

/-! ## Claim C1 — binary threshold bands -/

/-- **C1**: for every binary rottenness score, the mapped ripeness category
is determined by threshold bands — below 0.3 gives "ripe", from 0.3 up to
but excluding 0.7 gives "overripe", from 0.7 on gives "spoiled"; 0.3 itself
maps to "overripe", 0.7 itself maps to "spoiled", and "unripe" is never the
selected category in binary mode (neither from the mapper nor as the
`ripeness` field of a formatted result). -/
theorem claim_C1_binary_threshold_bands (s : ℚ) :
    (s < 0.3 → mapScoreToRipenessCategory s = "ripe")
    ∧ (0.3 ≤ s → s < 0.7 → mapScoreToRipenessCategory s = "overripe")
    ∧ (0.7 ≤ s → mapScoreToRipenessCategory s = "spoiled")
    ∧ mapScoreToRipenessCategory (0.3 : ℚ) = "overripe"
    ∧ mapScoreToRipenessCategory (0.7 : ℚ) = "spoiled"
    ∧ mapScoreToRipenessCategory s ≠ "unripe"
    ∧ (∀ (meta : Catalog) (file : Option String),
        (formatResults meta [s] file).ripeness ≠ "unripe") := by
  have hne : mapScoreToRipenessCategory s ≠ "unripe" := by
    rcases mapScore_cases s with h | h | h <;> rw [h] <;> decide
  refine ⟨fun h => mapScore_eq_ripe h,
    fun h1 h2 => mapScore_eq_overripe (not_lt.mpr h1) h2,
    fun h => mapScore_eq_spoiled (not_lt.mpr (by linarith)) (not_lt.mpr h),
    mapScore_eq_overripe (by norm_num) (by norm_num),
    mapScore_eq_spoiled (by norm_num) (by norm_num),
    hne, fun meta file => ?_⟩
  rw [formatResults_ripeness]
  exact hne

/-- Witness for C1 at the boundary scores 0.29, 0.30, 0.69, 0.70. -/
theorem claim_C1_witness :
    mapScoreToRipenessCategory (0.29 : ℚ) = "ripe"
    ∧ mapScoreToRipenessCategory (0.3 : ℚ) = "overripe"
    ∧ mapScoreToRipenessCategory (0.69 : ℚ) = "overripe"
    ∧ mapScoreToRipenessCategory (0.7 : ℚ) = "spoiled"
    ∧ mapScoreToRipenessCategory (0.3 : ℚ) ≠ "unripe" :=
  ⟨(claim_C1_binary_threshold_bands 0.29).1 (by norm_num),
   (claim_C1_binary_threshold_bands 0.3).2.2.2.1,
   (claim_C1_binary_threshold_bands 0.69).2.1 (by norm_num) (by norm_num),
   (claim_C1_binary_threshold_bands 0.7).2.2.1 (by norm_num),
   (claim_C1_binary_threshold_bands 0.3).2.2.2.2.2.1⟩

/-! ## Claim C10 — the binary mapper is total, with no error branch -/

/-- **C10**: the binary threshold mapper is a total function on all numeric
scores: every input, with no precondition, yields one of the four canonical
categories; any score below 0.3 (negative included) yields "ripe" and any
score at or above 0.7 (above 1 included) yields "spoiled". The Lean
definition mirrors the source, whose if/else chain has no error branch. -/
theorem claim_C10_mapper_total (s : ℚ) :
    mapScoreToRipenessCategory s ∈ RIPENESS_CATEGORIES
    ∧ (s < 0.3 → mapScoreToRipenessCategory s = "ripe")
    ∧ (0.7 ≤ s → mapScoreToRipenessCategory s = "spoiled") := by
  refine ⟨?_, fun h => mapScore_eq_ripe h,
    fun h => mapScore_eq_spoiled (not_lt.mpr (by linarith)) (not_lt.mpr h)⟩
  rcases mapScore_cases s with h | h | h <;> rw [h] <;> decide

/-- Witness for C10 at the out-of-range scores −2 and 1.5. -/
theorem claim_C10_witness :
    mapScoreToRipenessCategory (-2 : ℚ) = "ripe"
    ∧ mapScoreToRipenessCategory (1.5 : ℚ) = "spoiled"
    ∧ mapScoreToRipenessCategory (-2 : ℚ) ∈ RIPENESS_CATEGORIES
    ∧ mapScoreToRipenessCategory (1.5 : ℚ) ∈ RIPENESS_CATEGORIES :=
  ⟨(claim_C10_mapper_total (-2)).2.1 (by norm_num),
   (claim_C10_mapper_total 1.5).2.2 (by norm_num),
   (claim_C10_mapper_total (-2)).1,
   (claim_C10_mapper_total 1.5).1⟩

/-! ## Claim C3 — synthesized binary confidence distribution -/

/-- **C3**: for every binary score, the synthesized four-entry confidence
distribution equals exactly the spec formulas — below 0.3: ripe = (1−s)·100,
unripe = max(0.3−s, 0)·100, overripe = spoiled = 0; from 0.3 up to but
excluding 0.7: overripe = ((s−0.3)/0.4)·100, ripe = ((0.7−s)/0.4)·100,
others 0; from 0.7 on: spoiled = s·100, overripe = (1−s)·100·0.5, others 0.
The formatted result carries exactly this distribution as allConfidences. -/
theorem claim_C3_confidence_synthesis (s : ℚ) :
    (s < 0.3 → binaryConfidenceMap s =
      { unripe := max (0.3 - s) 0 * 100, ripe := (1 - s) * 100,
        overripe := 0, spoiled := 0 })
    ∧ (0.3 ≤ s → s < 0.7 → binaryConfidenceMap s =
      { unripe := 0, ripe := (0.7 - s) / 0.4 * 100,
        overripe := (s - 0.3) / 0.4 * 100, spoiled := 0 })
    ∧ (0.7 ≤ s → binaryConfidenceMap s =
      { unripe := 0, ripe := 0, overripe := (1 - s) * 100 * 0.5,
        spoiled := s * 100 })
    ∧ (∀ (meta : Catalog) (file : Option String),
        (formatResults meta [s] file).allConfidences
          = allConfidencesOf (binaryConfidenceMap s)) := by
  refine ⟨fun h => ?_, fun h1 h2 => ?_, fun h => ?_,
    fun meta file => formatResults_allConfidences meta [s] file⟩
  · have hpos : (0.3 : ℚ) - s > 0 := by linarith
    unfold binaryConfidenceMap
    rw [if_pos h, if_pos hpos, max_eq_left (le_of_lt hpos)]
  · unfold binaryConfidenceMap
    rw [if_neg (not_lt.mpr h1), if_pos h2]
  · unfold binaryConfidenceMap
    rw [if_neg (not_lt.mpr (by linarith)), if_neg (not_lt.mpr h)]

/-- Witness for C3, one score in each band: 0.1, 0.5 and 0.9. -/
theorem claim_C3_witness :
    binaryConfidenceMap (0.1 : ℚ)
      = { unripe := 20, ripe := 90, overripe := 0, spoiled := 0 }
    ∧ binaryConfidenceMap (0.5 : ℚ)
      = { unripe := 0, ripe := 50, overripe := 50, spoiled := 0 }
    ∧ binaryConfidenceMap (0.9 : ℚ)
      = { unripe := 0, ripe := 0, overripe := 5, spoiled := 90 } := by
  refine ⟨((claim_C3_confidence_synthesis 0.1).1 (by norm_num)).trans ?_,
    ((claim_C3_confidence_synthesis 0.5).2.1 (by norm_num) (by norm_num)).trans ?_,
    ((claim_C3_confidence_synthesis 0.9).2.2.1 (by norm_num)).trans ?_⟩ <;>
    norm_num [ConfidenceMap.mk.injEq, max_def]

/-! ## Claim C9 — selected category need not be the arg-max of the
synthesized distribution -/

/-- **C9**: in binary mode the selected ripeness is not necessarily the
arg-max of the synthesized confidence distribution: for every score s with
0.3 ≤ s < 0.5 the result's ripeness is "overripe" while the "ripe" entry of
allConfidences carries strictly greater confidence; and at s = 0.3 exactly,
the reported confidence for the selected category is 0. -/
theorem claim_C9_selected_not_argmax (s : ℚ) (h1 : 0.3 ≤ s) (h2 : s < 0.5)
    (meta : Catalog) (file : Option String) :
    (formatResults meta [s] file).ripeness = "overripe"
    ∧ List.lookup "ripe" (formatResults meta [s] file).allConfidences
        = some ((binaryConfidenceMap s).ripe)
    ∧ (formatResults meta [s] file).confidence = (binaryConfidenceMap s).overripe
    ∧ (binaryConfidenceMap s).ripe > (binaryConfidenceMap s).overripe
    ∧ (formatResults meta [(0.3 : ℚ)] file).confidence = 0 := by
  have h7 : s < 0.7 := by linarith
  have hover : mapScoreToRipenessCategory s = "overripe" :=
    mapScore_eq_overripe (not_lt.mpr h1) h7
  have hmap : binaryConfidenceMap s =
      { unripe := 0, ripe := (0.7 - s) / 0.4 * 100,
        overripe := (s - 0.3) / 0.4 * 100, spoiled := 0 } := by
    unfold binaryConfidenceMap
    rw [if_neg (not_lt.mpr h1), if_pos h7]
  refine ⟨?_, ?_, ?_, ?_, ?_⟩
  · rw [formatResults_ripeness]
    exact hover
  · rw [formatResults_allConfidences]
    rfl
  · rw [formatResults_confidence]
    show confMapGet (binaryConfidenceMap s) (mapScoreToRipenessCategory [s].headI)
      = (binaryConfidenceMap s).overripe
    rw [show ([s] : List ℚ).headI = s from rfl, hover]
    rfl
  · rw [hmap]
    show (0.7 - s) / 0.4 * 100 > (s - 0.3) / 0.4 * 100
    have e1 : (0.7 - s) / 0.4 * 100 = (0.7 - s) * 250 := by ring
    have e2 : (s - 0.3) / 0.4 * 100 = (s - 0.3) * 250 := by ring
    rw [e1, e2]
    nlinarith
  · rw [formatResults_confidence]
    have hm : mapScoreToRipenessCategory ([(0.3 : ℚ)] : List ℚ).headI = "overripe" :=
      mapScore_eq_overripe (by norm_num) (by norm_num)
    rw [hm]
    have hb : binaryConfidenceMap ([(0.3 : ℚ)] : List ℚ).headI =
        { unripe := 0, ripe := (0.7 - 0.3) / 0.4 * 100,
          overripe := ((0.3 : ℚ) - 0.3) / 0.4 * 100, spoiled := 0 } := by
      unfold binaryConfidenceMap
      rw [show ([(0.3 : ℚ)] : List ℚ).headI = (0.3 : ℚ) from rfl]
      rw [if_neg (by norm_num), if_pos (by norm_num)]
    rw [hb]
    show ((0.3 : ℚ) - 0.3) / 0.4 * 100 = 0
    norm_num

/-- Witness for C9 at s = 0.4. -/
theorem claim_C9_witness :
    (0.3 : ℚ) ≤ 0.4 ∧ (0.4 : ℚ) < 0.5
    ∧ ((formatResults [] [(0.4 : ℚ)] none).ripeness = "overripe"
      ∧ List.lookup "ripe" (formatResults [] [(0.4 : ℚ)] none).allConfidences
          = some ((binaryConfidenceMap (0.4 : ℚ)).ripe)
      ∧ (formatResults [] [(0.4 : ℚ)] none).confidence
          = (binaryConfidenceMap (0.4 : ℚ)).overripe
      ∧ (binaryConfidenceMap (0.4 : ℚ)).ripe > (binaryConfidenceMap (0.4 : ℚ)).overripe
      ∧ (formatResults [] [(0.3 : ℚ)] none).confidence = 0) :=
  ⟨by norm_num, by norm_num,
   claim_C9_selected_not_argmax 0.4 (by norm_num) (by norm_num) [] none⟩

/-! ## Claim C4 — well-formedness invariants of the result record -/

/-- The result-record invariants hold for any prediction vector in the
model (the claims instantiate this at genuine length-1 predictions). -/
theorem formatResults_invariants (meta : Catalog) (d : List ℚ) (file : Option String) :
    (formatResults meta d file).ripeness ∈ RIPENESS_CATEGORIES
    ∧ (formatResults meta d file).allConfidences.length = 4
    ∧ (formatResults meta d file).allConfidences.map Prod.fst = RIPENESS_CATEGORIES
    ∧ List.lookup (formatResults meta d file).ripeness
        (formatResults meta d file).allConfidences
        = some (formatResults meta d file).confidence := by
  refine ⟨?_, rfl, rfl, ?_⟩
  · rw [formatResults_ripeness]
    rcases mapScore_cases d.headI with h | h | h <;> rw [h] <;> decide
  · rw [formatResults_ripeness, formatResults_allConfidences, formatResults_confidence]
    rcases mapScore_cases d.headI with h | h | h <;> rw [h] <;> rfl

/-- **C4**: every ClassificationResult produced by a successful call (a
length-1 binary prediction) satisfies: ripeness is one of the four
canonical categories; allConfidences has exactly four entries, one per
canonical category in the fixed order; and the confidence field equals the
confidence of the allConfidences entry whose category equals ripeness. -/
theorem claim_C4_result_invariants (meta : Catalog) (d : List ℚ) (file : Option String)
    (_h : d.length = 1) :
    (formatResults meta d file).ripeness ∈ RIPENESS_CATEGORIES
    ∧ (formatResults meta d file).allConfidences.length = 4
    ∧ (formatResults meta d file).allConfidences.map Prod.fst = RIPENESS_CATEGORIES
    ∧ List.lookup (formatResults meta d file).ripeness
        (formatResults meta d file).allConfidences
        = some (formatResults meta d file).confidence :=
  formatResults_invariants meta d file

/-- Witness for C4 at the prediction [0.5]. -/
theorem claim_C4_witness :
    ([(0.5 : ℚ)].length = 1)
    ∧ ((formatResults [] [(0.5 : ℚ)] none).ripeness ∈ RIPENESS_CATEGORIES
      ∧ (formatResults [] [(0.5 : ℚ)] none).allConfidences.length = 4
      ∧ (formatResults [] [(0.5 : ℚ)] none).allConfidences.map Prod.fst = RIPENESS_CATEGORIES
      ∧ List.lookup (formatResults [] [(0.5 : ℚ)] none).ripeness
          (formatResults [] [(0.5 : ℚ)] none).allConfidences
          = some (formatResults [] [(0.5 : ℚ)] none).confidence) :=
  ⟨rfl, claim_C4_result_invariants [] [0.5] none rfl⟩

/-! ## Claim C8 — load failure degrades to the mock model, not an error -/

/-- **C8**: when loading the model artifact fails, initialization installs
the synthetic (mock) model handle and returns `false` without throwing (its
return type carries no error), and a subsequent classification call with
the installed handle still runs the full pipeline and produces a
well-formed result, for either outcome of the mock model's random draw. -/
theorem claim_C8_load_failure_soft (e : String) (coin : Bool)
    (meta : Catalog) (file : Option String) :
    initializeClassifier none (Except.error e) coin = (createMockModel coin, false)
    ∧ (classifyImage meta (initializeClassifier none (Except.error e) coin).1 file).ripeness
        ∈ RIPENESS_CATEGORIES
    ∧ (classifyImage meta (initializeClassifier none (Except.error e) coin).1
        file).allConfidences.map Prod.fst = RIPENESS_CATEGORIES
    ∧ List.lookup
        (classifyImage meta (initializeClassifier none (Except.error e) coin).1 file).ripeness
        (classifyImage meta (initializeClassifier none (Except.error e) coin).1
          file).allConfidences
        = some (classifyImage meta
            (initializeClassifier none (Except.error e) coin).1 file).confidence := by
  have hinv := formatResults_invariants meta ((createMockModel coin).predict ()) file
  exact ⟨rfl, hinv.1, hinv.2.2.1, hinv.2.2.2⟩

/-! ## Claim C6 — enrichment lookup with axis canonicalization and generic
fallback -/

/-- **C6**: recommendation and indicator lookup canonicalize the four-way
category to the fresh/rotten quality axis ("ripe"/"unripe" to fresh,
"overripe"/"spoiled" to rotten), then read the catalog entry's two-valued
field on that axis; on any miss — catalog entry absent, field object
absent, or axis value absent — they return the fixed generic fallback text
keyed by the original category, never an error. In particular an unknown
fruit type (absent from the catalog) always yields the generic fallback
text for its category, and for the four canonical categories the fallback
is a real table entry, not the out-of-table default. -/
theorem claim_C6_enrichment_fallback (meta : Catalog) (category fruitType : String) :
    ((category = "ripe" ∨ category = "unripe") →
      ∀ fr : FreshRotten, axisGet category fr = fr.fresh)
    ∧ ((category = "overripe" ∨ category = "spoiled") →
      ∀ fr : FreshRotten, axisGet category fr = fr.rotten)
    ∧ getRecommendationText meta category fruitType
      = ((getFruitMetadata meta fruitType).bind
          (fun f => f.storageRecommendations.bind (axisGet category))).getD
          (genericRecommendations category)
    ∧ getRipenessIndicators meta category fruitType
      = ((getFruitMetadata meta fruitType).bind
          (fun f => f.qualityIndicators.bind (axisGet category))).getD
          (genericIndicators category)
    ∧ (getFruitMetadata meta fruitType = none →
        getRecommendationText meta category fruitType = genericRecommendations category
        ∧ getRipenessIndicators meta category fruitType = genericIndicators category)
    ∧ (category ∈ RIPENESS_CATEGORIES →
        genericRecommendations category ≠ "Unknown recommendation"
        ∧ genericIndicators category ≠ "No specific indicators available") := by
  have hrec : getRecommendationText meta category fruitType
      = ((getFruitMetadata meta fruitType).bind
          (fun f => f.storageRecommendations.bind (axisGet category))).getD
          (genericRecommendations category) := by
    unfold getRecommendationText
    cases hf : getFruitMetadata meta fruitType with
    | none => rfl
    | some fruit =>
      cases hs : fruit.storageRecommendations with
      | none => simp [hs]
      | some sr =>
        cases ha : axisGet category sr with
        | none => simp [hs, ha]
        | some t => simp [hs, ha]
  have hind : getRipenessIndicators meta category fruitType
      = ((getFruitMetadata meta fruitType).bind
          (fun f => f.qualityIndicators.bind (axisGet category))).getD
          (genericIndicators category) := by
    unfold getRipenessIndicators
    cases hf : getFruitMetadata meta fruitType with
    | none => rfl
    | some fruit =>
      cases hs : fruit.qualityIndicators with
      | none => simp [hs]
      | some qi =>
        cases ha : axisGet category qi with
        | none => simp [hs, ha]
        | some t => simp [hs, ha]
  refine ⟨?_, ?_, hrec, hind, ?_, ?_⟩
  · rintro (h | h) fr <;> subst h <;> rfl
  · rintro (h | h) fr <;> subst h <;> rfl
  · intro hnone
    rw [hrec, hind, hnone]
    exact ⟨rfl, rfl⟩
  · intro hmem
    rcases List.mem_cons.mp hmem with h | hmem
    · subst h; decide
    rcases List.mem_cons.mp hmem with h | hmem
    · subst h; decide
    rcases List.mem_cons.mp hmem with h | hmem
    · subst h; decide
    rcases List.mem_cons.mp hmem with h | hmem
    · subst h; decide
    · cases hmem

/-- Witness for C6: a one-entry catalog with both axis values set; the
rotten-axis hit, the unknown-fruit miss, and the fresh-axis indicator hit. -/
theorem claim_C6_witness :
    getRecommendationText
      [{ name := "apple", displayName := "Apple",
         qualityIndicators := some { fresh := some "Firm and shiny",
                                     rotten := some "Bruised and soft" },
         storageRecommendations := some { fresh := some "Refrigerate apples",
                                          rotten := some "Compost spoiled apples" },
         variants := [] }] "spoiled" "apple" = "Compost spoiled apples"
    ∧ getRecommendationText
      [{ name := "apple", displayName := "Apple",
         qualityIndicators := some { fresh := some "Firm and shiny",
                                     rotten := some "Bruised and soft" },
         storageRecommendations := some { fresh := some "Refrigerate apples",
                                          rotten := some "Compost spoiled apples" },
         variants := [] }] "spoiled" "durian" = "Remove from inventory"
    ∧ getRipenessIndicators
      [{ name := "apple", displayName := "Apple",
         qualityIndicators := some { fresh := some "Firm and shiny",
                                     rotten := some "Bruised and soft" },
         storageRecommendations := some { fresh := some "Refrigerate apples",
                                          rotten := some "Compost spoiled apples" },
         variants := [] }] "ripe" "apple" = "Firm and shiny" := by
  refine ⟨((claim_C6_enrichment_fallback _ "spoiled" "apple").2.2.1).trans (by decide),
    ((claim_C6_enrichment_fallback _ "spoiled" "durian").2.2.1).trans (by decide),
    ((claim_C6_enrichment_fallback _ "ripe" "apple").2.2.2.1).trans (by decide)⟩

/-! ## Claim C7 — fruit-type derivation (corrected: hardcoded list only) -/

/-- The first-match scan equals `List.find?` with an "unknown" default. -/
theorem findFruit_eq_find (l : List String) (fn : String) :
    findFruit l fn = (l.find? (fun fr => jsIncludes fn.data fr.data)).getD "unknown" := by
  induction l with
  | nil => rfl
  | cons f rest ih =>
    unfold findFruit
    by_cases h : jsIncludes fn.data f.data
    · simp [List.find?, h]
    · simp [List.find?, h, ih]

/-- **C7 counterexample**: the claim says the derivation tries an exact
catalog-name match first; with a catalog holding "dragonfruit" and the
filename "dragonfruit.jpg", the spec-modelled claimed algorithm returns
"dragonfruit" but the code (both revisions) returns "unknown" — the code
never consults the catalog. -/
theorem claim_C7_counterexample :
    extractFruitType (some "dragonfruit.jpg") = "unknown"
    ∧ getFruitTypeFromFileName "dragonfruit.jpg" = "unknown"
    ∧ specDerivedFruitType
        [{ name := "dragonfruit", displayName := "Dragon Fruit",
           qualityIndicators := none, storageRecommendations := none,
           variants := [] }] "dragonfruit.jpg" = "dragonfruit"
    ∧ ("unknown" : String) ≠ "dragonfruit" := by
  decide

/-- **C7 amended**: for every filename input the derived fruit type is
computed solely from the hardcoded fallback fruit-name list — the first of
the fourteen hardcoded names occurring in the lowercased filename
(`getFruitTypeFromFileName` first truncates at the first dot), else
"unknown"; no catalog-name or variant-alias matching is performed (the
derivation takes no catalog input at all). Absent a usable filename the
result is "unknown". -/
theorem claim_C7_amended_hardcoded_only (s : String) :
    extractFruitType (some s)
      = (fruitsList.find? (fun fr => jsIncludes (jsToLower s).data fr.data)).getD "unknown"
    ∧ getFruitTypeFromFileName s
      = (fruitsList.find?
          (fun fr => jsIncludes (jsToLower (beforeFirstDot s)).data fr.data)).getD "unknown"
    ∧ extractFruitType none = "unknown" :=
  ⟨findFruit_eq_find fruitsList (jsToLower s),
   findFruit_eq_find fruitsList (jsToLower (beforeFirstDot s)), rfl⟩

/-! ## Claim C2 — length-4 predictions (corrected: no 4-way arg-max mode) -/

/-- **C2 counterexample**: the non-negative length-4 score vector
[0.8, 0.1, 0.05, 0.05] has its arg-max at index 0, whose category in the
fixed table is "unripe", and per the claim allConfidences would be the
scores times 100 verbatim. The code does neither: the binary revision reads
only index 0 as a rottenness score and returns "spoiled" with the
synthesized distribution [0, 0, 10, 80]; the 24-class revision maps the
arg-max through its own 24-class table and returns "ripe". -/
theorem claim_C2_counterexample :
    (0 : ℚ) ≤ 0.8 ∧ (0 : ℚ) ≤ 0.1 ∧ (0 : ℚ) ≤ 0.05
    ∧ ([(0.8 : ℚ), 0.1, 0.05, 0.05].length = 4)
    ∧ Multiclass.highestIndex [(0.8 : ℚ), 0.1, 0.05, 0.05] = 0
    ∧ RIPENESS_CATEGORIES.getD 0 "" = "unripe"
    ∧ (formatResults [] [(0.8 : ℚ), 0.1, 0.05, 0.05] none).ripeness = "spoiled"
    ∧ Multiclass.formatResultsRipeness [(0.8 : ℚ), 0.1, 0.05, 0.05] = "ripe"
    ∧ (formatResults [] [(0.8 : ℚ), 0.1, 0.05, 0.05] none).allConfidences
        = [("unripe", 0), ("ripe", 0), ("overripe", 10), ("spoiled", 80)]
    ∧ (formatResults [] [(0.8 : ℚ), 0.1, 0.05, 0.05] none).allConfidences
        ≠ [("unripe", (80 : ℚ)), ("ripe", 10), ("overripe", 5), ("spoiled", 5)] := by
  have hac : (formatResults [] [(0.8 : ℚ), 0.1, 0.05, 0.05] none).allConfidences
      = [("unripe", 0), ("ripe", 0), ("overripe", 10), ("spoiled", 80)] := by
    unfold formatResults allConfidencesOf binaryConfidenceMap
    norm_num
  refine ⟨by norm_num, by norm_num, by norm_num, rfl, ?_, rfl, ?_, ?_, hac, ?_⟩
  · unfold Multiclass.highestIndex
    norm_num [List.foldl, List.indexOf, List.findIdx, List.findIdx.go, max_def]
  · unfold formatResults mapScoreToRipenessCategory
    norm_num
  · unfold Multiclass.formatResultsRipeness Multiclass.highestIndex
    norm_num [List.foldl, List.indexOf, List.findIdx, List.findIdx.go,
      Multiclass.CLASS_NAMES, Multiclass.mapToRipenessCategory,
      Multiclass.RIPENESS_MAPPING, List.lookup, max_def]
  · rw [hac]
    decide

/-- **C2 amended**: for any raw prediction that is a score vector of length
4, the current (binary-revision) pipeline processes it exactly as it would
the one-element vector holding its first score: the mapped ripeness is the
binary threshold category of the score at index 0, and allConfidences is
the synthesized binary distribution of that score — the remaining three
scores are ignored; no arg-max over a fixed 4-category order is taken and
the scores are not copied into allConfidences verbatim. -/
theorem claim_C2_amended_binary_on_head (meta : Catalog) (d : List ℚ)
    (file : Option String) (_hlen : d.length = 4) :
    formatResults meta d file = formatResults meta [d.headI] file
    ∧ (formatResults meta d file).ripeness = mapScoreToRipenessCategory d.headI
    ∧ (formatResults meta d file).allConfidences
        = allConfidencesOf (binaryConfidenceMap d.headI) := by
  exact ⟨rfl, rfl, rfl⟩

/-- Witness for C2 (amended) at the length-4 vector [0.2, 0.3, 0.1, 0.4]. -/
theorem claim_C2_witness :
    ([(0.2 : ℚ), 0.3, 0.1, 0.4].length = 4)
    ∧ (formatResults [] [(0.2 : ℚ), 0.3, 0.1, 0.4] none
        = formatResults [] [(0.2 : ℚ)] none
      ∧ (formatResults [] [(0.2 : ℚ), 0.3, 0.1, 0.4] none).ripeness
          = mapScoreToRipenessCategory (0.2 : ℚ)
      ∧ (formatResults [] [(0.2 : ℚ), 0.3, 0.1, 0.4] none).allConfidences
          = allConfidencesOf (binaryConfidenceMap (0.2 : ℚ))) :=
  ⟨rfl, claim_C2_amended_binary_on_head [] [0.2, 0.3, 0.1, 0.4] none rfl⟩

/-! ## Claim C5 — bounded FIFO history buffer -/

/-- Below capacity, an append just pushes. -/
theorem addDataPointToHistory_of_le {α : Type} (hist : List α) (x : α)
    (h : hist.length ≤ 49) :
    addDataPointToHistory hist x = hist ++ [x] := by
  show (if (hist ++ [x]).length > 50 then (hist ++ [x]).tail else hist ++ [x]) = hist ++ [x]
  rw [if_neg]
  simp only [List.length_append, List.length_cons, List.length_nil, not_lt]
  omega

/-- At capacity, an append pushes and evicts the entry at index 0. -/
theorem addDataPointToHistory_of_eq {α : Type} (hist : List α) (x : α)
    (h : hist.length = 50) :
    addDataPointToHistory hist x = hist.tail ++ [x] := by
  rcases hist with _ | ⟨a, t⟩
  · simp at h
  · show (if ((a :: t) ++ [x]).length > 50 then ((a :: t) ++ [x]).tail else (a :: t) ++ [x])
        = (a :: t).tail ++ [x]
    rw [if_pos]
    · simp
    · simp only [List.length_append, List.length_cons, List.length_nil] at h ⊢
      omega

/-- An append never pushes the buffer past capacity 50. -/
theorem addDataPointToHistory_length_le {α : Type} (hist : List α) (x : α)
    (h : hist.length ≤ 50) :
    (addDataPointToHistory hist x).length ≤ 50 := by
  show (if (hist ++ [x]).length > 50 then (hist ++ [x]).tail else hist ++ [x]).length ≤ 50
  by_cases hgt : (hist ++ [x]).length > 50
  · rw [if_pos hgt]
    simp only [List.length_tail, List.length_append, List.length_cons, List.length_nil]
    omega
  · rw [if_neg hgt]
    simp only [List.length_append, List.length_cons, List.length_nil, not_lt] at hgt ⊢
    omega

/-- Folding appends over a buffer below capacity keeps exactly the final
window: the result is the concatenation with its oldest overflow dropped. -/
theorem foldl_addDataPointToHistory {α : Type} (xs : List α) :
    ∀ hist : List α, hist.length ≤ 50 →
      List.foldl addDataPointToHistory hist xs
        = (hist ++ xs).drop (hist.length + xs.length - 50) := by
  induction xs with
  | nil =>
    intro hist h
    simp [Nat.sub_eq_zero_of_le h]
  | cons x xs ih =>
    intro hist h
    rw [List.foldl_cons]
    by_cases hl : hist.length ≤ 49
    · rw [addDataPointToHistory_of_le hist x hl, ih (hist ++ [x]) (by simp; omega)]
      have e1 : (hist ++ [x]) ++ xs = hist ++ x :: xs := by simp
      have e2 : (hist ++ [x]).length + xs.length - 50
          = hist.length + (x :: xs).length - 50 := by
        simp only [List.length_append, List.length_cons, List.length_nil]
        omega
      rw [e1, e2]
    · have h50 : hist.length = 50 := by omega
      rcases hist with _ | ⟨a, t⟩
      · simp at h50
      · have ht : t.length = 49 := by
          simp only [List.length_cons] at h50
          omega
        rw [addDataPointToHistory_of_eq _ x h50,
          ih ((a :: t).tail ++ [x]) (by simp only [List.tail_cons, List.length_append,
            List.length_cons, List.length_nil]; omega)]
        have e1 : ((a :: t).tail ++ [x]) ++ xs = t ++ x :: xs := by simp
        have e2 : ((a :: t).tail ++ [x]).length + xs.length - 50 = xs.length := by
          simp only [List.tail_cons, List.length_append, List.length_cons, List.length_nil]
          omega
        have e3 : (a :: t) ++ x :: xs = a :: (t ++ x :: xs) := by simp
        have e4 : ((a :: t) : List α).length + (x :: xs).length - 50 = xs.length + 1 := by
          simp only [List.length_cons]
          omega
        rw [e1, e2, e3, e4, List.drop_succ_cons]

/-- The last element of a list is a member of it. -/
theorem mem_of_getLast {α : Type} : ∀ (l : List α) (a : α), l.getLast? = some a → a ∈ l := by
  intro l
  induction l with
  | nil => intro a h; simp at h
  | cons b t ih =>
    intro a h
    rcases t with _ | ⟨c, u⟩
    · simp at h
      subst h
      exact List.mem_cons_self _ _
    · rw [List.getLast?_cons_cons] at h
      exact List.mem_cons_of_mem b (ih a h)

/-- **C5**: for every sequence of appends to the history buffer, after
capacity + 1 (= 51) appends to an initially empty buffer the original
oldest entry is absent (entries distinct) and the newest entry is present —
the final content is exactly the append sequence minus its first entry —
the buffer length never exceeds the capacity 50, and each append performed
at capacity evicts the entry at index 0. -/
theorem claim_C5_history_buffer_fifo (xs : List ℕ) (hlen : xs.length = 51)
    (hnd : xs.Nodup) :
    List.foldl addDataPointToHistory ([] : List ℕ) xs = xs.tail
    ∧ (∀ a, xs.head? = some a → a ∉ List.foldl addDataPointToHistory ([] : List ℕ) xs)
    ∧ (∀ a, xs.getLast? = some a → a ∈ List.foldl addDataPointToHistory ([] : List ℕ) xs)
    ∧ (∀ (hist : List ℕ) (y : ℕ), hist.length ≤ 50 →
        (addDataPointToHistory hist y).length ≤ 50)
    ∧ (∀ (hist : List ℕ) (y : ℕ), hist.length = 50 →
        addDataPointToHistory hist y = hist.tail ++ [y]) := by
  have hfold : List.foldl addDataPointToHistory ([] : List ℕ) xs = xs.tail := by
    rw [foldl_addDataPointToHistory xs [] (by simp)]
    simp only [List.nil_append, List.length_nil, hlen]
    rw [show 0 + 51 - 50 = 1 from rfl, List.drop_one]
  refine ⟨hfold, ?_, ?_, fun hist y h => addDataPointToHistory_length_le hist y h,
    fun hist y h => addDataPointToHistory_of_eq hist y h⟩
  · intro a ha
    rw [hfold]
    rcases xs with _ | ⟨b, t⟩
    · simp at ha
    · have hb : b = a := by simpa using ha
      cases hb
      exact (List.nodup_cons.mp hnd).1
  · intro a ha
    rw [hfold]
    rcases xs with _ | ⟨b, t⟩
    · simp at hlen
    · rcases t with _ | ⟨c, u⟩
      · simp at hlen
      · rw [List.getLast?_cons_cons] at ha
        exact mem_of_getLast _ _ ha

/-- Witness for C5: the 51 distinct entries 0, …, 50. -/
theorem claim_C5_witness :
    ((List.range 51).length = 51) ∧ (List.range 51).Nodup
    ∧ (List.foldl addDataPointToHistory ([] : List ℕ) (List.range 51)
        = (List.range 51).tail
      ∧ (∀ a, (List.range 51).head? = some a →
          a ∉ List.foldl addDataPointToHistory ([] : List ℕ) (List.range 51))
      ∧ (∀ a, (List.range 51).getLast? = some a →
          a ∈ List.foldl addDataPointToHistory ([] : List ℕ) (List.range 51))
      ∧ (∀ (hist : List ℕ) (y : ℕ), hist.length ≤ 50 →
          (addDataPointToHistory hist y).length ≤ 50)
      ∧ (∀ (hist : List ℕ) (y : ℕ), hist.length = 50 →
          addDataPointToHistory hist y = hist.tail ++ [y])) :=
  ⟨by simp, List.nodup_range 51,
   claim_C5_history_buffer_fifo (List.range 51) (by simp) (List.nodup_range 51)⟩
